import Mathlib

/-!
Verification development for an MCP (Model Context Protocol) chat client.

The development shallowly embeds the Python sources:
  * `src/core/tools.py`  — `ToolManager` (schema conversion, tool routing,
    batch execution of tool requests in two request shapes);
  * `src/core/chat.py`   — `Chat.run` (the bounded model-turn / tool-turn loop);
  * `src/mcp_client.py`  — `MCPClient` (session lifecycle, `cleanup`).

Python dictionaries are modelled as ordered association lists (Python dicts
preserve insertion order and have unique keys), Python exceptions as `Except`,
and `None` as `Option`.  Clients used by the tool manager and the chat loop are
modelled in their connected (`Ready`) state, where `list_tools` cannot fail; the
connection/cleanup state machine of `MCPClient` is modelled separately below.
-/

/-- JSON-like values: the shape of Python dict/list/str/int/bool/None data that
flows through schema conversion and tool arguments. Objects are ordered
association lists, mirroring Python dict insertion order. -/
inductive JsonVal where
  | null : JsonVal
  | bool : Bool → JsonVal
  | num : Int → JsonVal
  | str : String → JsonVal
  | arr : List JsonVal → JsonVal
  | obj : List (String × JsonVal) → JsonVal

/-- Python truthiness of a JSON-like value: `None`, `False`, `0`, `""`, `[]`
and `\x7b\x7d` are falsy, everything else truthy. -/
def jsonTruthy : JsonVal → Bool
  | .null => false
  | .bool b => b
  | .num n => n != 0
  | .str s => s != ""
  | .arr l => !l.isEmpty
  | .obj l => !l.isEmpty

/-- Python `isinstance(v, dict)`. -/
def isObjJ : JsonVal → Bool
  | .obj _ => true
  | _ => false

/-- A single quote character, used in Python error message f-strings. -/
def squot : String := String.singleton (Char.ofNat 39)

/-- Lowercase hexadecimal digit character, as used by Python json escapes. -/
def hexDigitChar (n : Nat) : Char :=
  if n < 10 then Char.ofNat (48 + n) else Char.ofNat (87 + n)

/-- Four lowercase hex digits of `n` (for a `\uXXXX` escape). -/
def hex4 (n : Nat) : String :=
  String.mk [hexDigitChar (n / 4096 % 16), hexDigitChar (n / 256 % 16),
             hexDigitChar (n / 16 % 16), hexDigitChar (n % 16)]

/-- Escape of one character by Python `json.dumps` (default `ensure_ascii=True`):
`"` and `\` get backslash escapes, the usual control-character short escapes
apply, printable ASCII is kept, and everything else becomes `\uXXXX`
(a surrogate pair beyond the BMP). -/
def pyJsonEscapeChar (c : Char) : String :=
  if c = Char.ofNat 34 then String.mk [Char.ofNat 92, Char.ofNat 34]
  else if c = Char.ofNat 92 then String.mk [Char.ofNat 92, Char.ofNat 92]
  else if c.toNat = 10 then "\\n"
  else if c.toNat = 13 then "\\r"
  else if c.toNat = 9 then "\\t"
  else if c.toNat = 8 then "\\b"
  else if c.toNat = 12 then "\\f"
  else if 32 ≤ c.toNat && c.toNat ≤ 126 then String.singleton c
  else if c.toNat ≤ 65535 then "\\u" ++ hex4 c.toNat
  else
    "\\u" ++ hex4 (55296 + (c.toNat - 65536) / 1024)
      ++ "\\u" ++ hex4 (56320 + (c.toNat - 65536) % 1024)

/-- Python `json.dumps` of a string. -/
def pyJsonStr (s : String) : String :=
  "\"" ++ String.join (s.data.map pyJsonEscapeChar) ++ "\""

/-- Python `json.dumps` of a list of strings (`json.dumps(content_list)`). -/
def pyJsonStrList (l : List String) : String :=
  "[" ++ String.intercalate ", " (l.map pyJsonStr) ++ "]"

/-- Python `json.dumps(\x7b"error": msg\x7d)`. -/
def pyJsonErrorObj (msg : String) : String :=
  "\x7b\"error\": " ++ pyJsonStr msg ++ "\x7d"

/-- The f-string from `tools.py` that renders as
`Error executing tool <squot><tool_name><squot>: <e>`, where `msg` is `str(e)`
for the raised exception `e` and `squot` is the single-quote character. -/
def toolErrorMessage (toolName msg : String) : String :=
  "Error executing tool " ++ squot ++ toolName ++ squot ++ ": " ++ msg

/-- One content item of an MCP `CallToolResult`: either a `TextContent` carrying
text or some other content type (image, resource, ...). -/
inductive ContentItem where
  | text : String → ContentItem
  | other : ContentItem

/-- MCP `CallToolResult`: content items plus the server-reported error flag. -/
structure CallToolResult where
  content : List ContentItem
  isError : Bool

/-- Outcome of `client.call_tool`: a normal return (possibly `None`) or a raised
exception carrying `str(e)`. -/
inductive CallOutcome where
  | ok : Option CallToolResult → CallOutcome
  | exn : String → CallOutcome

/-- An MCP tool descriptor (`mcp.types.Tool`): name, description and input
schema; `none` models a missing/`None` schema. -/
structure MCPTool where
  name : String
  description : String
  inputSchema : Option JsonVal

/-- A connected (`Ready`) MCP client as seen by `ToolManager` and `Chat`:
`tools` is what `list_tools()` reports and `call` is the behavior of
`call_tool` for each tool name and argument value. -/
structure MCPClientModel where
  tools : List MCPTool
  call : String → JsonVal → CallOutcome

/-- Models `ToolManager._find_client_with_tool`: the first client, in order, whose
`list_tools()` contains a tool with the given name. -/
def findClientWithTool (clients : List MCPClientModel) (toolName : String) :
    Option MCPClientModel :=
  match clients with
  | [] => none
  | c :: rest =>
    if c.tools.any (fun t => t.name == toolName) then some c
    else findClientWithTool rest toolName

/-- The `status` literal of `ToolManager._build_tool_result_part`. -/
inductive Status where
  | success : Status
  | error : Status
deriving DecidableEq

/-- The `ToolResultBlockParam` dictionary built by
`ToolManager._build_tool_result_part`. -/
structure ToolResultBlock where
  tool_use_id : String
  type : String
  content : String
  is_error : Bool
deriving DecidableEq

/-- Models `ToolManager._build_tool_result_part`. -/
def buildToolResultPart (toolUseId text : String) (status : Status) :
    ToolResultBlock :=
  { tool_use_id := toolUseId
    type := "tool_result"
    content := text
    is_error := status == Status.error }

/-- A Gemini-style function call (`func_call.name`, `func_call.args`). -/
structure FunctionCall where
  name : String
  args : JsonVal

/-- A Claude-style content block; only blocks with `type = "tool_use"` are
executed, using their `id`, `name` and `input` fields. -/
structure ContentBlock where
  type : String
  id : String
  name : String
  input : JsonVal

/-- A model-adapter response object: optional `function_calls` attribute
(`none` = attribute absent), optional `content` attribute, optional `text`
attribute, and `strRepr` modelling Python `str(response)`. -/
structure ModelResponse where
  function_calls : Option (List FunctionCall)
  content : Option (List ContentBlock)
  text : Option String
  strRepr : String

/-- The Python check that `response` has a `function_calls` attribute and that
it is truthy (a present, non-empty list). -/
def fcTruthy (r : ModelResponse) : Bool :=
  match r.function_calls with
  | some (_ :: _) => true
  | _ => false

/-- The expression from `chat.py` selecting `response.text` when the `text`
attribute exists and `str(response)` otherwise. -/
def responseTextOf (r : ModelResponse) : String :=
  match r.text with
  | some t => t
  | none => r.strRepr

/-- The synthesized id `f"gemini_call_\x7bi\x7d_\x7btool_name\x7d"` for
variant-A (Gemini) requests; `Nat.repr` is decimal, as in Python. -/
def geminiCallId (i : Nat) (toolName : String) : String :=
  "gemini_call_" ++ Nat.repr i ++ "_" ++ toolName

/-- The loop body of `ToolManager._execute_gemini_function_calls` for the
request at index `i`: resolve the owning client, invoke the tool, and build
exactly one result block (not-found, exception, or normal outcome). -/
def execGeminiOne (clients : List MCPClientModel) (i : Nat)
    (funcCall : FunctionCall) : ToolResultBlock :=
  let toolUseId := geminiCallId i funcCall.name
  match findClientWithTool clients funcCall.name with
  | none => buildToolResultPart toolUseId "Could not find that tool" .error
  | some client =>
    match client.call funcCall.name funcCall.args with
    | .exn e =>
      buildToolResultPart toolUseId
        (pyJsonErrorObj (toolErrorMessage funcCall.name e)) .error
    | .ok toolOutput =>
      let items := match toolOutput with
        | some o => o.content
        | none => []
      let contentList := items.filterMap fun item =>
        match item with
        | .text s => some s
        | .other => none
      buildToolResultPart toolUseId (pyJsonStrList contentList)
        (match toolOutput with
         | some o => if o.isError then .error else .success
         | none => .success)

/-- The enumerated loop of `_execute_gemini_function_calls`, with `i` the
current `enumerate` index. -/
def execGeminiAux (clients : List MCPClientModel) :
    Nat → List FunctionCall → List ToolResultBlock
  | _, [] => []
  | i, funcCall :: rest =>
    execGeminiOne clients i funcCall :: execGeminiAux clients (i + 1) rest

/-- Models `ToolManager._execute_gemini_function_calls`. -/
def execGeminiFunctionCalls (clients : List MCPClientModel)
    (functionCalls : List FunctionCall) : List ToolResultBlock :=
  execGeminiAux clients 0 functionCalls

/-- The loop body of `ToolManager._execute_claude_tool_requests` for one
request: the id is taken verbatim from the request; the rest of the body is
the same per-request algorithm as the Gemini variant. -/
def execClaudeOne (clients : List MCPClientModel) (toolRequest : ContentBlock) :
    ToolResultBlock :=
  let toolUseId := toolRequest.id
  match findClientWithTool clients toolRequest.name with
  | none => buildToolResultPart toolUseId "Could not find that tool" .error
  | some client =>
    match client.call toolRequest.name toolRequest.input with
    | .exn e =>
      buildToolResultPart toolUseId
        (pyJsonErrorObj (toolErrorMessage toolRequest.name e)) .error
    | .ok toolOutput =>
      let items := match toolOutput with
        | some o => o.content
        | none => []
      let contentList := items.filterMap fun item =>
        match item with
        | .text s => some s
        | .other => none
      buildToolResultPart toolUseId (pyJsonStrList contentList)
        (match toolOutput with
         | some o => if o.isError then .error else .success
         | none => .success)

/-- Models `ToolManager._execute_claude_tool_requests`. -/
def execClaudeToolRequests (clients : List MCPClientModel)
    (toolRequests : List ContentBlock) : List ToolResultBlock :=
  toolRequests.map (execClaudeOne clients)

/-- Models `ToolManager.execute_tool_requests`: dispatch on a truthy `function_calls`
attribute (variant A), else on a `content` attribute filtered to `tool_use`
blocks (variant B), else return the empty list. -/
def executeToolRequests (clients : List MCPClientModel) (r : ModelResponse) :
    List ToolResultBlock :=
  if fcTruthy r then
    execGeminiFunctionCalls clients (r.function_calls.getD [])
  else
    match r.content with
    | some blocks =>
      execClaudeToolRequests clients (blocks.filter fun b => b.type == "tool_use")
    | none => []

/-- A Python exception escaping schema conversion: `.items()` called on a
non-dict `properties` value raises `AttributeError`. -/
inductive PyExn where
  | attributeError : PyExn
deriving DecidableEq

/-- Cleaning of one property definition inside
`ToolManager._convert_mcp_schema_to_gemini`: a dict keeps only `type`
(defaulted to `"string"`), `description` and `enum`, in that insertion order;
a non-dict definition yields `none` (the Python loop skips it). -/
def cleanProp (propDef : JsonVal) : Option JsonVal :=
  match propDef with
  | .obj pf =>
    some (.obj (
      [("type", (pf.lookup "type").getD (.str "string"))]
      ++ (match pf.lookup "description" with
          | some d => [("description", d)]
          | none => [])
      ++ (match pf.lookup "enum" with
          | some e => [("enum", e)]
          | none => [])))
  | _ => none

/-- Models `ToolManager._convert_mcp_schema_to_gemini`.  A non-dict schema returns the
empty object; a dict schema yields `type` (defaulted to `"object"`), then the
cleaned `properties` map when present, then `required` verbatim when present.
When the `properties` value is present but not a dict, the Python code calls
`.items()` on it and raises `AttributeError`, modelled as `Except.error`. -/
def convertMcpSchemaToGemini (mcpSchema : JsonVal) : Except PyExn JsonVal :=
  match mcpSchema with
  | .obj fields =>
    let base := [("type", (fields.lookup "type").getD (.str "object"))]
    match fields.lookup "properties" with
    | some (.obj props) =>
      let cleaned := props.filterMap fun p => (cleanProp p.2).map fun c => (p.1, c)
      let withProps := base ++ [("properties", JsonVal.obj cleaned)]
      match fields.lookup "required" with
      | some req => .ok (.obj (withProps ++ [("required", req)]))
      | none => .ok (.obj withProps)
    | some _ => .error .attributeError
    | none =>
      match fields.lookup "required" with
      | some req => .ok (.obj (base ++ [("required", req)]))
      | none => .ok (.obj base)
  | _ => .ok (.obj [])

/-- A Gemini function declaration as built by `ToolManager.get_all_tools`:
`name`, `description`, and an optional `parameters` field. -/
structure GeminiTool where
  name : String
  description : String
  parameters : Option JsonVal

/-- The per-tool body of `ToolManager.get_all_tools`: convert the input schema
when present and truthy, and attach it as `parameters` only when the converted
value is truthy and a dict (`if parameters and isinstance(parameters, dict)`). -/
def geminiToolOfMcp (t : MCPTool) : Except PyExn GeminiTool :=
  match t.inputSchema with
  | some s =>
    if jsonTruthy s then
      match convertMcpSchemaToGemini s with
      | .error e => .error e
      | .ok parameters =>
        .ok { name := t.name
              description := t.description
              parameters :=
                if jsonTruthy parameters && isObjJ parameters then some parameters
                else none }
    else .ok { name := t.name, description := t.description, parameters := none }
  | none => .ok { name := t.name, description := t.description, parameters := none }

/-- The inner loop of `get_all_tools` over the tool list of one client. -/
def geminiToolsOfMcpTools : List MCPTool → Except PyExn (List GeminiTool)
  | [] => .ok []
  | t :: ts =>
    match geminiToolOfMcp t with
    | .error e => .error e
    | .ok g =>
      match geminiToolsOfMcpTools ts with
      | .error e => .error e
      | .ok gs => .ok (g :: gs)

/-- Models `ToolManager.get_all_tools`: the tools of all clients in registration
order, each converted to a Gemini function declaration. -/
def getAllTools : List MCPClientModel → Except PyExn (List GeminiTool)
  | [] => .ok []
  | c :: cs =>
    match geminiToolsOfMcpTools c.tools with
    | .error e => .error e
    | .ok gs =>
      match getAllTools cs with
      | .error e => .error e
      | .ok rest => .ok (gs ++ rest)

/-- One part of a structured assistant message content: a text part or a
function-call part (`\x7b"type": "function_call", ...\x7d`). -/
inductive MsgPart where
  | textPart : String → MsgPart
  | funcCall : String → JsonVal → MsgPart

/-- Message content: plain text or an ordered list of parts. -/
inductive MessageContent where
  | text : String → MessageContent
  | parts : List MsgPart → MessageContent

/-- A transcript message (`\x7b"role": ..., "content": ...\x7d`). -/
structure Message where
  role : String
  content : MessageContent

/-- Models `Chat._add_assistant_message`: with truthy `function_calls`, append an
assistant message whose content lists an optional text part (only when `text`
is present and truthy) followed by one function-call part per call; otherwise
append a plain-text assistant message. -/
def addAssistantMessage (messages : List Message) (r : ModelResponse) :
    List Message :=
  if fcTruthy r then
    let textParts : List MsgPart :=
      match r.text with
      | some t => if t == "" then [] else [.textPart t]
      | none => []
    let callParts : List MsgPart :=
      (r.function_calls.getD []).map fun funcCall =>
        .funcCall funcCall.name funcCall.args
    messages ++ [⟨"assistant", .parts (textParts ++ callParts)⟩]
  else
    messages ++ [⟨"assistant", .text (responseTextOf r)⟩]

/-- The summary text built by `Chat._add_user_message` for a non-empty result
list: a header line followed by one `"- <id>: <SUCCESS|ERROR> - <content>"`
line per result. -/
def toolResultsText (parts : List ToolResultBlock) : String :=
  "Tool execution results:\n" ++
    String.join (parts.map fun r =>
      "- " ++ r.tool_use_id ++ ": " ++ (if r.is_error then "ERROR" else "SUCCESS")
        ++ " - " ++ r.content ++ "\n")

/-- The placeholder appended by `Chat._add_user_message` for an empty batch. -/
def noResultsText : String := "Tool execution completed with no results."

/-- Models `Chat._add_user_message`. -/
def addUserMessage (messages : List Message) (parts : List ToolResultBlock) :
    List Message :=
  match parts with
  | [] => messages ++ [⟨"user", .text noResultsText⟩]
  | _ => messages ++ [⟨"user", .text (toolResultsText parts)⟩]

/-- The mutable state of one `Chat.run` call: the transcript, the loop counter
`iteration_count`, and `final_text_response`. -/
structure RunState where
  messages : List Message
  iterationCount : Nat
  finalText : String

/-- The fixed fallback answer returned when the iteration cap is reached. -/
def fallbackText : String :=
  "I encountered an issue while processing your request. Please try rephrasing your question."

/-- The `while iteration_count < max_iterations` loop of `Chat.run`, with
`fuel` the number of remaining permitted iterations (initially 5).  Each pass
increments the counter, fetches the catalog (propagating a conversion
exception), calls the adapter, appends the assistant message, and either
executes the tool batch and appends the user summary, or captures the final
text and stops. -/
def chatLoop (adapter : List Message → List GeminiTool → ModelResponse)
    (clients : List MCPClientModel) :
    Nat → RunState → Except PyExn RunState
  | 0, st => .ok st
  | Nat.succ fuel, st =>
    match getAllTools clients with
    | .error e => .error e
    | .ok tools =>
      let response := adapter st.messages tools
      let messages := addAssistantMessage st.messages response
      if fcTruthy response then
        let toolResultParts := executeToolRequests clients response
        chatLoop adapter clients fuel
          { messages := addUserMessage messages toolResultParts
            iterationCount := st.iterationCount + 1
            finalText := st.finalText }
      else
        .ok { messages := messages
              iterationCount := st.iterationCount + 1
              finalText := responseTextOf response }

/-- Models `Chat.run` up to its final-state contents: the query is appended as a user
message and the loop runs with cap 5. -/
def chatRunState (adapter : List Message → List GeminiTool → ModelResponse)
    (clients : List MCPClientModel) (query : String) : Except PyExn RunState :=
  chatLoop adapter clients 5 ⟨[⟨"user", .text query⟩], 0, ""⟩

/-- Models `Chat.run`: the returned string, with the post-loop check
`if iteration_count >= max_iterations` substituting the fallback text. -/
def chatRun (adapter : List Message → List GeminiTool → ModelResponse)
    (clients : List MCPClientModel) (query : String) : Except PyExn String :=
  match chatRunState adapter clients query with
  | .error e => .error e
  | .ok st => .ok (if 5 ≤ st.iterationCount then fallbackText else st.finalText)

/-- A session as held by a connected `MCPClient`: the tool list reported by
the server and the tool-call behavior. -/
structure SessionModel where
  tools : List MCPTool
  call : String → JsonVal → CallOutcome

/-- The connection state of an `MCPClient`: `_session` is `none` before
`connect()` and after `cleanup()`. -/
structure MCPClientSt where
  session : Option SessionModel

/-- An error raised by `MCPClient`: `session()` raises `ConnectionError` with a
fixed message when `_session` is `None`. -/
inductive MCPError where
  | connectionError : String → MCPError
deriving DecidableEq

/-- The message of the `ConnectionError` raised by `MCPClient.session`. -/
def sessionNotReadyMsg : String :=
  "Client session not initialized or cache not populated. Call connect_to_server first."

/-- Models `MCPClient.session`: the session when present, else the raised
`ConnectionError` (the session-not-ready error). -/
def MCPClientSt.sessionGet (c : MCPClientSt) : Except MCPError SessionModel :=
  match c.session with
  | none => .error (.connectionError sessionNotReadyMsg)
  | some s => .ok s

/-- Models `MCPClient.list_tools`: `self.session().list_tools().tools`. -/
def MCPClientSt.listTools (c : MCPClientSt) : Except MCPError (List MCPTool) :=
  match c.sessionGet with
  | .error e => .error e
  | .ok s => .ok s.tools

/-- Models `MCPClient.call_tool`: `self.session().call_tool(tool_name, tool_input)`. -/
def MCPClientSt.callTool (c : MCPClientSt) (toolName : String)
    (toolInput : JsonVal) : Except MCPError CallOutcome :=
  match c.sessionGet with
  | .error e => .error e
  | .ok s => .ok (s.call toolName toolInput)

/-- Models `MCPClient.cleanup`: the `try` body closes the exit stack (whose outcome,
including a raised teardown error, is the `acloseOutcome` argument), the
`except` clause suppresses any such error, and the `finally` clause sets
`_session = None`.  Cleanup therefore always completes and always leaves the
client closed, whatever the teardown did. -/
def MCPClientSt.cleanup (_c : MCPClientSt) (_acloseOutcome : Except String Unit) :
    MCPClientSt :=
  { session := none }

/-- Decimal digit characters of `n`, most significant first: a structural
specification of `Nat.toDigits 10`, used to reason about synthesized ids. -/
def decDigits (n : Nat) : List Char :=
  if n < 10 then [Nat.digitChar n]
  else decDigits (n / 10) ++ [Nat.digitChar (n % 10)]
termination_by n
decreasing_by exact Nat.div_lt_self (by omega) (by omega)

/-- Decode a most-significant-first list of decimal digit characters. -/
def decDecode (l : List Char) : Nat :=
  l.foldl (fun a c => 10 * a + (c.toNat - 48)) 0

/-- The transcript transformation performed by one full tool-turn iteration of
the `Chat.run` loop (assistant message, tool execution, user summary), given
the catalog `tools` the adapter is called with. -/
def iterStep (adapter : List Message → List GeminiTool → ModelResponse)
    (clients : List MCPClientModel) (tools : List GeminiTool)
    (messages : List Message) : List Message :=
  let response := adapter messages tools
  addUserMessage (addAssistantMessage messages response)
    (executeToolRequests clients response)

/-- The transcript after `k` completed tool-turn iterations of `Chat.run`
started on `query`. -/
def msgsAfterIter (adapter : List Message → List GeminiTool → ModelResponse)
    (clients : List MCPClientModel) (tools : List GeminiTool) (query : String) :
    Nat → List Message
  | 0 => [⟨"user", .text query⟩]
  | k + 1 => iterStep adapter clients tools
      (msgsAfterIter adapter clients tools query k)

/-- The adapter response produced at iteration `k + 1` of the loop (0-based
`k`), assuming the first `k` iterations were tool turns. -/
def respAtIter (adapter : List Message → List GeminiTool → ModelResponse)
    (clients : List MCPClientModel) (tools : List GeminiTool) (query : String)
    (k : Nat) : ModelResponse :=
  adapter (msgsAfterIter adapter clients tools query k) tools

/-- Does a transcript message contain function-call parts and carry the
assistant role? These are the messages that must be followed by a tool-result
user message. -/
def isAssistantFC (m : Message) : Bool :=
  m.role == "assistant" &&
    (match m.content with
     | .parts ps => ps.any fun p =>
        match p with
        | .funcCall _ _ => true
        | .textPart _ => false
     | .text _ => false)

/-- A user message of the shape `Chat._add_user_message` appends: either the
tool-result summary block for a non-empty result batch (one
`"- <id>: <SUCCESS|ERROR> - <content>"` line per result) or the fixed
placeholder for an empty batch. -/
def isToolSummaryMsg (m : Message) : Prop :=
  m.role = "user" ∧
    ((∃ parts, parts ≠ ([] : List ToolResultBlock) ∧
        m.content = .text (toolResultsText parts)) ∨
      m.content = .text noResultsText)

/-- Transcript pairing invariant: every assistant message with function-call
parts is immediately followed by a tool-result user message (in particular, the
transcript never ends on such an assistant message). -/
def pairedOk : List Message → Prop
  | [] => True
  | m :: rest =>
    (isAssistantFC m = true → ∃ m2 r2, rest = m2 :: r2 ∧ isToolSummaryMsg m2)
    ∧ pairedOk rest


/-- The well-formed example schema from the specification (one string property
`x` with a description and an enum, required). -/
def exSchema : JsonVal :=
  .obj [("type", .str "object"),
        ("properties", .obj [("x", .obj [("type", .str "string"),
                                         ("description", .str "d"),
                                         ("enum", .arr [.str "a", .str "b"])])]),
        ("required", .arr [.str "x"])]

/-- A response carrying exactly one function call, used to exercise the loop. -/
def fcOnlyResponse : ModelResponse :=
  ⟨some [⟨"t", .null⟩], none, none, "resp"⟩

/-- A plain-text response with text `"THE ANSWER"`. -/
def plainTextResponse : ModelResponse :=
  ⟨none, none, some "THE ANSWER", "resp"⟩

/-- An adapter that requests a tool call on every turn. -/
def alwaysFcAdapter (_ : List Message) (_ : List GeminiTool) : ModelResponse :=
  fcOnlyResponse

/-- An adapter that immediately answers in plain text. -/
def alwaysTextAdapter (_ : List Message) (_ : List GeminiTool) : ModelResponse :=
  plainTextResponse

/-- An adapter that requests tool calls for four iterations and answers in
plain text on the fifth; after four tool-turn iterations the transcript has
grown from 1 to 9 messages (each iteration adds an assistant message and a
user summary message). -/
def fifthTextAdapter (messages : List Message) (_ : List GeminiTool) :
    ModelResponse :=
  if 9 ≤ messages.length then plainTextResponse else fcOnlyResponse

/-- A client owning one tool `"boom"` whose invocation always raises. -/
def boomClient : MCPClientModel :=
  ⟨[⟨"boom", "d", none⟩], fun _ _ => .exn "kaboom"⟩

/-- A concrete schema whose `properties` map has one property without a
`type` key and one non-mapping property definition. -/
def c10Schema : List (String × JsonVal) :=
  [("type", .str "object"),
   ("properties", .obj [("a", .obj [("description", .str "q")]),
                        ("b", .num 5)])]

theorem toDigitsCore_append (fuel n : Nat) (acc : List Char) :
    Nat.toDigitsCore 10 fuel n acc = Nat.toDigitsCore 10 fuel n [] ++ acc := by
  induction fuel generalizing n acc with
  | zero => simp [Nat.toDigitsCore]
  | succ fuel ih =>
    simp only [Nat.toDigitsCore]
    by_cases h : n / 10 = 0
    · simp [h]
    · simp only [h, if_false]
      rw [ih (n / 10) (Nat.digitChar (n % 10) :: acc),
        ih (n / 10) (Nat.digitChar (n % 10) :: [])]
      simp

theorem toDigitsCore_eq_decDigits (fuel n : Nat) (h : n < fuel) :
    Nat.toDigitsCore 10 fuel n [] = decDigits n := by
  induction fuel generalizing n with
  | zero => omega
  | succ fuel ih =>
    rw [Nat.toDigitsCore]
    by_cases h10 : n < 10
    · have hz : n / 10 = 0 := Nat.div_eq_of_lt h10
      rw [decDigits]
      simp [hz, h10, Nat.mod_eq_of_lt h10]
    · have hz : ¬ n / 10 = 0 := by omega
      simp only [hz, if_false]
      rw [toDigitsCore_append, ih (n / 10) (by omega)]
      conv_rhs => rw [decDigits]
      simp [h10]

theorem repr_eq_decDigits (n : Nat) : Nat.repr n = (decDigits n).asString := by
  rw [Nat.repr, Nat.toDigits, toDigitsCore_eq_decDigits (n + 1) n (by omega)]

theorem digitChar_toNat (d : Nat) (h : d < 10) :
    (Nat.digitChar d).toNat = 48 + d := by
  interval_cases d <;> rfl

theorem decDecode_decDigits (n : Nat) : decDecode (decDigits n) = n := by
  induction n using Nat.strong_induction_on with
  | _ n ih =>
    rw [decDigits]
    by_cases h : n < 10
    · simp [h, decDecode, List.foldl, digitChar_toNat n h]
    · simp only [h, if_false]
      have hmod : (n % 10) < 10 := by omega
      rw [decDecode, List.foldl_append]
      have hrec : (decDigits (n / 10)).foldl (fun a c => 10 * a + (c.toNat - 48)) 0
          = n / 10 := ih (n / 10) (by omega)
      rw [hrec]
      simp [digitChar_toNat (n % 10) hmod]
      omega

theorem decDigits_inj {m n : Nat} (h : decDigits m = decDigits n) : m = n := by
  have := congrArg decDecode h
  simpa [decDecode_decDigits] using this

theorem nat_repr_inj {m n : Nat} (h : Nat.repr m = Nat.repr n) : m = n := by
  rw [repr_eq_decDigits, repr_eq_decDigits] at h
  exact decDigits_inj (congrArg String.data h)

theorem digitChar_ne_underscore (d : Nat) : Nat.digitChar d ≠ '_' := by
  by_cases h : d < 16
  · interval_cases d <;> decide
  · unfold Nat.digitChar
    repeat rw [if_neg (by omega)]
    decide

theorem underscore_not_mem_decDigits (n : Nat) : '_' ∉ decDigits n := by
  induction n using Nat.strong_induction_on with
  | _ n ih =>
    rw [decDigits]
    by_cases h : n < 10
    · simp only [h, if_true, List.mem_singleton]
      exact fun hc => digitChar_ne_underscore n hc.symm
    · simp only [h, if_false, List.mem_append, List.mem_singleton]
      rintro (hmem | hc)
      · exact ih (n / 10) (by omega) hmem
      · exact digitChar_ne_underscore (n % 10) hc.symm

theorem underscore_not_mem_repr (n : Nat) : '_' ∉ (Nat.repr n).data := by
  rw [repr_eq_decDigits]
  exact underscore_not_mem_decDigits n

/-- Splitting at the first separator: lists equal up to the first `'_'` agree
on both sides of it. -/
theorem split_at_first_underscore (l1 : List Char) :
    ∀ (l2 r1 r2 : List Char), '_' ∉ l1 → '_' ∉ l2 →
      l1 ++ '_' :: r1 = l2 ++ '_' :: r2 → l1 = l2 ∧ r1 = r2 := by
  induction l1 with
  | nil =>
    intro l2 r1 r2 _ h2 h
    cases l2 with
    | nil => simpa using h
    | cons b bs =>
      injection h with hb _
      exact absurd (hb ▸ List.mem_cons_self b bs) h2
  | cons a as ih =>
    intro l2 r1 r2 h1 h2 h
    cases l2 with
    | nil =>
      injection h with hb _
      exact absurd (hb ▸ List.mem_cons_self a as) h1
    | cons b bs =>
      injection h with hb ht
      have hrec := ih bs r1 r2 (fun hm => h1 (List.mem_cons_of_mem a hm))
        (fun hm => h2 (List.mem_cons_of_mem b hm)) ht
      exact ⟨by rw [hb, hrec.1], hrec.2⟩

theorem geminiCallId_inj {i j : Nat} {n1 n2 : String}
    (h : geminiCallId i n1 = geminiCallId j n2) : i = j ∧ n1 = n2 := by
  unfold geminiCallId at h
  have hd := congrArg String.data h
  simp only [String.data_append, List.append_assoc] at hd
  have hd2 := List.append_cancel_left hd
  have hsplit := split_at_first_underscore (Nat.repr i).data (Nat.repr j).data
    n1.data n2.data (underscore_not_mem_repr i) (underscore_not_mem_repr j)
    (by simpa using hd2)
  refine ⟨nat_repr_inj ?_, ?_⟩
  · apply String.ext
    exact hsplit.1
  · apply String.ext
    exact hsplit.2

theorem execGeminiOne_id (clients : List MCPClientModel) (i : Nat)
    (funcCall : FunctionCall) :
    (execGeminiOne clients i funcCall).tool_use_id = geminiCallId i funcCall.name := by
  unfold execGeminiOne
  split
  · rfl
  · split <;> rfl

theorem execClaudeOne_id (clients : List MCPClientModel)
    (toolRequest : ContentBlock) :
    (execClaudeOne clients toolRequest).tool_use_id = toolRequest.id := by
  unfold execClaudeOne
  split
  · rfl
  · split <;> rfl

theorem execGeminiAux_length (clients : List MCPClientModel) (i : Nat)
    (fcs : List FunctionCall) :
    (execGeminiAux clients i fcs).length = fcs.length := by
  induction fcs generalizing i with
  | nil => rfl
  | cons fc rest ih => simp [execGeminiAux, ih]

theorem execGeminiAux_id_getElem (clients : List MCPClientModel) (i : Nat)
    (fcs : List FunctionCall) (k : Nat) :
    ((execGeminiAux clients i fcs).map (fun b => b.tool_use_id))[k]?
      = fcs[k]?.map (fun fc => geminiCallId (i + k) fc.name) := by
  induction fcs generalizing i k with
  | nil => simp [execGeminiAux]
  | cons fc rest ih =>
    cases k with
    | zero => simp [execGeminiAux, execGeminiOne_id]
    | succ k =>
      simp only [execGeminiAux, List.map_cons, List.getElem?_cons_succ]
      have hik : i + (k + 1) = (i + 1) + k := by omega
      rw [hik]
      exact ih (i + 1) k

theorem execClaude_ids (clients : List MCPClientModel)
    (toolRequests : List ContentBlock) :
    (execClaudeToolRequests clients toolRequests).map (fun b => b.tool_use_id)
      = toolRequests.map (fun r => r.id) := by
  unfold execClaudeToolRequests
  rw [List.map_map]
  exact List.map_congr_left fun r _ => execClaudeOne_id clients r

theorem execGeminiAux_not_found (clients : List MCPClientModel) (i : Nat)
    (funcCall : FunctionCall) (rest : List FunctionCall)
    (h : findClientWithTool clients funcCall.name = none) :
    execGeminiAux clients i (funcCall :: rest)
      = buildToolResultPart (geminiCallId i funcCall.name)
          "Could not find that tool" .error
        :: execGeminiAux clients (i + 1) rest := by
  simp [execGeminiAux, execGeminiOne, h]

theorem execGeminiAux_exn (clients : List MCPClientModel) (i : Nat)
    (funcCall : FunctionCall) (rest : List FunctionCall)
    (client : MCPClientModel) (e : String)
    (hfind : findClientWithTool clients funcCall.name = some client)
    (hcall : client.call funcCall.name funcCall.args = .exn e) :
    execGeminiAux clients i (funcCall :: rest)
      = buildToolResultPart (geminiCallId i funcCall.name)
          (pyJsonErrorObj (toolErrorMessage funcCall.name e)) .error
        :: execGeminiAux clients (i + 1) rest := by
  simp [execGeminiAux, execGeminiOne, hfind, hcall]

theorem execClaude_not_found (clients : List MCPClientModel)
    (toolRequest : ContentBlock) (rest : List ContentBlock)
    (h : findClientWithTool clients toolRequest.name = none) :
    execClaudeToolRequests clients (toolRequest :: rest)
      = buildToolResultPart toolRequest.id "Could not find that tool" .error
        :: execClaudeToolRequests clients rest := by
  simp [execClaudeToolRequests, execClaudeOne, h]

theorem execClaude_exn (clients : List MCPClientModel)
    (toolRequest : ContentBlock) (rest : List ContentBlock)
    (client : MCPClientModel) (e : String)
    (hfind : findClientWithTool clients toolRequest.name = some client)
    (hcall : client.call toolRequest.name toolRequest.input = .exn e) :
    execClaudeToolRequests clients (toolRequest :: rest)
      = buildToolResultPart toolRequest.id
          (pyJsonErrorObj (toolErrorMessage toolRequest.name e)) .error
        :: execClaudeToolRequests clients rest := by
  simp [execClaudeToolRequests, execClaudeOne, hfind, hcall]

theorem chatLoop_step_fc (adapter : List Message → List GeminiTool → ModelResponse)
    (clients : List MCPClientModel) (tools : List GeminiTool) (fuel : Nat)
    (messages : List Message) (count : Nat) (finalText : String)
    (hT : getAllTools clients = .ok tools)
    (hfc : fcTruthy (adapter messages tools) = true) :
    chatLoop adapter clients (fuel + 1) ⟨messages, count, finalText⟩
      = chatLoop adapter clients fuel
          ⟨iterStep adapter clients tools messages, count + 1, finalText⟩ := by
  simp [chatLoop, hT, hfc, iterStep]

theorem chatLoop_step_text (adapter : List Message → List GeminiTool → ModelResponse)
    (clients : List MCPClientModel) (tools : List GeminiTool) (fuel : Nat)
    (messages : List Message) (count : Nat) (finalText : String)
    (hT : getAllTools clients = .ok tools)
    (hfc : fcTruthy (adapter messages tools) = false) :
    chatLoop adapter clients (fuel + 1) ⟨messages, count, finalText⟩
      = .ok ⟨addAssistantMessage messages (adapter messages tools), count + 1,
             responseTextOf (adapter messages tools)⟩ := by
  simp [chatLoop, hT, hfc]

theorem chatLoop_count_le (adapter : List Message → List GeminiTool → ModelResponse)
    (clients : List MCPClientModel) (fuel : Nat) :
    ∀ (st st' : RunState), chatLoop adapter clients fuel st = .ok st' →
      st'.iterationCount ≤ st.iterationCount + fuel := by
  induction fuel with
  | zero =>
    intro st st' h
    simp only [chatLoop] at h
    cases h
    omega
  | succ fuel ih =>
    intro st st' h
    simp only [chatLoop] at h
    cases hT : getAllTools clients with
    | error e => rw [hT] at h; cases h
    | ok tools =>
      rw [hT] at h
      simp only at h
      by_cases hfc : fcTruthy (adapter st.messages tools) = true
      · rw [if_pos hfc] at h
        have := ih _ _ h
        simp only at this
        omega
      · rw [if_neg hfc] at h
        cases h
        simp

theorem pairedOk_append_two (a b : Message) (hb : isToolSummaryMsg b)
    (hbfc : isAssistantFC b = false) :
    ∀ xs, pairedOk xs → pairedOk (xs ++ [a, b]) := by
  intro xs
  induction xs with
  | nil =>
    intro _
    exact ⟨fun _ => ⟨b, [], rfl, hb⟩,
      ⟨fun h => absurd h (by simp [hbfc]), trivial⟩⟩
  | cons x xs ih =>
    intro hx
    refine ⟨?_, ih hx.2⟩
    intro hfc
    obtain ⟨m2, r2, hr, hsum⟩ := hx.1 hfc
    exact ⟨m2, r2 ++ [a, b], by rw [hr]; rfl, hsum⟩

theorem pairedOk_append_one (a : Message) (hafc : isAssistantFC a = false) :
    ∀ xs, pairedOk xs → pairedOk (xs ++ [a]) := by
  intro xs
  induction xs with
  | nil => intro _; exact ⟨fun h => absurd h (by simp [hafc]), trivial⟩
  | cons x xs ih =>
    intro hx
    refine ⟨?_, ih hx.2⟩
    intro hfc
    obtain ⟨m2, r2, hr, hsum⟩ := hx.1 hfc
    exact ⟨m2, r2 ++ [a], by rw [hr]; rfl, hsum⟩

theorem chatLoop_pairedOk (adapter : List Message → List GeminiTool → ModelResponse)
    (clients : List MCPClientModel) (fuel : Nat) :
    ∀ (st st' : RunState), pairedOk st.messages →
      chatLoop adapter clients fuel st = .ok st' → pairedOk st'.messages := by
  induction fuel with
  | zero =>
    intro st st' hp h
    simp only [chatLoop] at h
    cases h
    exact hp
  | succ fuel ih =>
    intro st st' hp h
    simp only [chatLoop] at h
    cases hT : getAllTools clients with
    | error e => rw [hT] at h; cases h
    | ok tools =>
      rw [hT] at h
      simp only at h
      by_cases hfc : fcTruthy (adapter st.messages tools) = true
      · rw [if_pos hfc] at h
        apply ih _ _ _ h
        show pairedOk (addUserMessage
          (addAssistantMessage st.messages (adapter st.messages tools))
          (executeToolRequests clients (adapter st.messages tools)))
        rw [addAssistantMessage, if_pos hfc]
        cases hres : executeToolRequests clients (adapter st.messages tools) with
        | nil =>
          rw [addUserMessage, List.append_assoc]
          exact pairedOk_append_two _ _ ⟨rfl, Or.inr rfl⟩ (by simp [isAssistantFC])
            st.messages hp
        | cons r rs =>
          rw [addUserMessage, List.append_assoc]
          exact pairedOk_append_two _ _
            ⟨rfl, Or.inl ⟨r :: rs, List.cons_ne_nil r rs, rfl⟩⟩ (by simp [isAssistantFC])
            st.messages hp
          exact List.cons_ne_nil r rs
      · rw [if_neg hfc] at h
        cases h
        show pairedOk (addAssistantMessage st.messages (adapter st.messages tools))
        rw [addAssistantMessage, if_neg hfc]
        exact pairedOk_append_one _ (by simp [isAssistantFC]) st.messages hp

theorem lookup_cleanProp_filterMap_not_mem (k : String) :
    ∀ props : List (String × JsonVal), (∀ p ∈ props, p.1 ≠ k) →
      (props.filterMap fun p => (cleanProp p.2).map fun c => (p.1, c)).lookup k
        = none := by
  intro props
  induction props with
  | nil => intro _; rfl
  | cons hd rest ih =>
    intro h
    rw [List.filterMap_cons]
    cases hc : (cleanProp hd.2).map fun c => (hd.1, c) with
    | none => exact ih fun p hp => h p (List.mem_cons_of_mem hd hp)
    | some q =>
      obtain ⟨c, -, hq⟩ := Option.map_eq_some'.mp hc
      rw [← hq]
      have hne : (k == hd.1) = false :=
        beq_eq_false_iff_ne.mpr (Ne.symm (h hd (List.mem_cons_self hd rest)))
      simp only [List.lookup, hne]
      exact ih fun p hp => h p (List.mem_cons_of_mem hd hp)

theorem lookup_cleanProp_filterMap (k : String) :
    ∀ (props : List (String × JsonVal)) (pd : JsonVal),
      (props.map Prod.fst).Nodup → (k, pd) ∈ props →
      (props.filterMap fun p => (cleanProp p.2).map fun c => (p.1, c)).lookup k
        = cleanProp pd := by
  intro props
  induction props with
  | nil => intro pd _ hmem; cases hmem
  | cons hd rest ih =>
    intro pd hnd hmem
    rw [List.map_cons, List.nodup_cons] at hnd
    rcases List.mem_cons.mp hmem with heq | hmem'
    · subst heq
      rw [List.filterMap_cons]
      cases hc : cleanProp pd with
      | some c =>
        simp only [hc, Option.map_some']
        simp [List.lookup]
      | none =>
        simp only [hc, Option.map_none']
        exact lookup_cleanProp_filterMap_not_mem k rest
          (fun p hp hpk => hnd.1 (List.mem_map.mpr ⟨p, hp, hpk⟩))
    · have hkne : hd.1 ≠ k := by
        intro hk
        exact hnd.1 (hk ▸ List.mem_map_of_mem Prod.fst hmem')
      rw [List.filterMap_cons]
      cases hc : (cleanProp hd.2).map fun c => (hd.1, c) with
      | none => exact ih pd hnd.2 hmem'
      | some q =>
        obtain ⟨c, -, hq⟩ := Option.map_eq_some'.mp hc
        rw [← hq]
        have hne : (k == hd.1) = false := beq_eq_false_iff_ne.mpr (Ne.symm hkne)
        simp only [List.lookup, hne]
        exact ih pd hnd.2 hmem'

theorem chatLoop_always_fc (adapter : List Message → List GeminiTool → ModelResponse)
    (clients : List MCPClientModel) (ts : List GeminiTool)
    (hT : getAllTools clients = .ok ts)
    (hfc : ∀ messages tools, fcTruthy (adapter messages tools) = true) :
    ∀ (fuel : Nat) (st : RunState), ∃ msgs' : List Message,
      chatLoop adapter clients fuel st
        = .ok ⟨msgs', st.iterationCount + fuel, st.finalText⟩ := by
  intro fuel
  induction fuel with
  | zero => intro st; exact ⟨st.messages, rfl⟩
  | succ fuel ih =>
    rintro ⟨m, c, f⟩
    obtain ⟨msgs', h⟩ := ih ⟨iterStep adapter clients ts m, c + 1, f⟩
    refine ⟨msgs', ?_⟩
    rw [chatLoop_step_fc adapter clients ts fuel m c f hT (hfc _ _), h]
    have hc : c + 1 + fuel = c + (fuel + 1) := by omega
    rw [hc]

theorem chatLoop_fc_prefix (adapter : List Message → List GeminiTool → ModelResponse)
    (clients : List MCPClientModel) (ts : List GeminiTool) (query : String)
    (hT : getAllTools clients = .ok ts) :
    ∀ (k fuel : Nat),
      (∀ j, j < k → fcTruthy (respAtIter adapter clients ts query j) = true) →
      chatLoop adapter clients (k + fuel) ⟨[⟨"user", .text query⟩], 0, ""⟩
        = chatLoop adapter clients fuel
            ⟨msgsAfterIter adapter clients ts query k, k, ""⟩ := by
  intro k
  induction k with
  | zero =>
    intro fuel _
    rw [Nat.zero_add]
    rfl
  | succ k ih =>
    intro fuel hprev
    have hkf : (k + 1) + fuel = k + (fuel + 1) := by omega
    rw [hkf, ih (fuel + 1) (fun j hj => hprev j (by omega)),
      chatLoop_step_fc adapter clients ts fuel
        (msgsAfterIter adapter clients ts query k) k "" hT (hprev k (by omega))]
    rfl

/-- C3: for either request variant, `execute_tool_requests` returns exactly one
`ToolResult` per request, in request order: the result lists have the same
length as the request lists, the `i`-th Gemini-variant result carries the
synthesized id for request `i`, the `i`-th Claude-variant result carries the
id of request `i` verbatim, and a response with neither a truthy
`function_calls` batch nor a `content` attribute yields the empty list. -/
theorem claim_C3_one_result_per_request_in_order
    (clients : List MCPClientModel) (fcs : List FunctionCall)
    (reqs : List ContentBlock) (k : Nat) (r : ModelResponse)
    (hfc : r.function_calls = none ∨ r.function_calls = some [])
    (hct : r.content = none) :
    (execGeminiFunctionCalls clients fcs).length = fcs.length
    ∧ ((execGeminiFunctionCalls clients fcs).map (fun b => b.tool_use_id))[k]?
        = fcs[k]?.map (fun fc => geminiCallId k fc.name)
    ∧ (execClaudeToolRequests clients reqs).length = reqs.length
    ∧ (execClaudeToolRequests clients reqs).map (fun b => b.tool_use_id)
        = reqs.map (fun req => req.id)
    ∧ executeToolRequests clients r = [] := by
  refine ⟨execGeminiAux_length clients 0 fcs, ?_, ?_, execClaude_ids clients reqs, ?_⟩
  · have h := execGeminiAux_id_getElem clients 0 fcs k
    simpa [execGeminiFunctionCalls] using h
  · simp [execClaudeToolRequests]
  · rcases hfc with h | h <;> simp [executeToolRequests, fcTruthy, h, hct]

/-- Witness for C3 at a concrete two-request batch, a concrete Claude request,
and a response with no requests at all. -/
theorem claim_C3_one_result_per_request_in_order_witness :
    (execGeminiFunctionCalls [] [⟨"a", JsonVal.null⟩, ⟨"b", JsonVal.null⟩]).length = 2
    ∧ ((execGeminiFunctionCalls [] [⟨"a", JsonVal.null⟩, ⟨"b", JsonVal.null⟩]).map
        (fun b => b.tool_use_id))[1]?
        = ([⟨"a", JsonVal.null⟩, ⟨"b", JsonVal.null⟩] :
            List FunctionCall)[1]?.map (fun fc => geminiCallId 1 fc.name)
    ∧ (execClaudeToolRequests []
        [⟨"tool_use", "id7", "srch", JsonVal.null⟩]).length = 1
    ∧ (execClaudeToolRequests []
        [⟨"tool_use", "id7", "srch", JsonVal.null⟩]).map (fun b => b.tool_use_id)
        = ([⟨"tool_use", "id7", "srch", JsonVal.null⟩] :
            List ContentBlock).map (fun req => req.id)
    ∧ executeToolRequests [] ⟨none, none, none, "r"⟩ = [] :=
  claim_C3_one_result_per_request_in_order [] [⟨"a", JsonVal.null⟩, ⟨"b", JsonVal.null⟩]
    [⟨"tool_use", "id7", "srch", JsonVal.null⟩] 1 ⟨none, none, none, "r"⟩
    (Or.inl rfl) rfl

/-- C4: Gemini-variant ids are synthesized deterministically as
`gemini_call_<i>_<name>` (they depend only on the ordered batch, not on the
clients or outcomes), are pairwise distinct within one batch, and
Claude-variant ids are taken verbatim from the requests. -/
theorem claim_C4_ids_deterministic_unique
    (clients clients2 : List MCPClientModel) (fcs : List FunctionCall)
    (reqs : List ContentBlock) (k l : Nat) :
    (((execGeminiFunctionCalls clients fcs).map (fun b => b.tool_use_id))[k]?
        = fcs[k]?.map (fun fc => geminiCallId k fc.name))
    ∧ ((execGeminiFunctionCalls clients fcs).map (fun b => b.tool_use_id)
        = (execGeminiFunctionCalls clients2 fcs).map (fun b => b.tool_use_id))
    ∧ (∀ idk idl : String, k ≠ l →
        ((execGeminiFunctionCalls clients fcs).map (fun b => b.tool_use_id))[k]?
          = some idk →
        ((execGeminiFunctionCalls clients fcs).map (fun b => b.tool_use_id))[l]?
          = some idl →
        idk ≠ idl)
    ∧ (execClaudeToolRequests clients reqs).map (fun b => b.tool_use_id)
        = reqs.map (fun req => req.id) := by
  refine ⟨by simpa [execGeminiFunctionCalls] using execGeminiAux_id_getElem clients 0 fcs k,
    ?_, ?_, execClaude_ids clients reqs⟩
  · apply List.ext_getElem?
    intro n
    simp only [execGeminiFunctionCalls]
    rw [execGeminiAux_id_getElem clients 0 fcs n, execGeminiAux_id_getElem clients2 0 fcs n]
  · intro idk idl hkl hk hl
    simp only [execGeminiFunctionCalls] at hk hl
    rw [execGeminiAux_id_getElem clients 0 fcs k] at hk
    rw [execGeminiAux_id_getElem clients 0 fcs l] at hl
    obtain ⟨fck, -, hidk⟩ := Option.map_eq_some'.mp hk
    obtain ⟨fcl, -, hidl⟩ := Option.map_eq_some'.mp hl
    intro heq
    rw [← hidk, ← hidl] at heq
    exact hkl (Nat.zero_add k ▸ Nat.zero_add l ▸ (geminiCallId_inj heq).1)

/-- Witness for C4: the synthesized ids at indices 0 and 1 of a concrete batch
with the same tool name are distinct. -/
theorem claim_C4_ids_deterministic_unique_witness :
    "gemini_call_0_a" ≠ "gemini_call_1_a" :=
  (claim_C4_ids_deterministic_unique [] [] [⟨"a", JsonVal.null⟩, ⟨"a", JsonVal.null⟩]
    [] 0 1).2.2.1 "gemini_call_0_a" "gemini_call_1_a" (by omega) rfl rfl

/-- C6: a request whose tool name no registered client owns produces exactly
one error result with content `"Could not find that tool"`, attempts no
invocation, and the remaining requests of the batch still execute (both
request variants). -/
theorem claim_C6_unknown_tool_error
    (clients : List MCPClientModel) (i : Nat)
    (funcCall : FunctionCall) (rest : List FunctionCall)
    (toolRequest : ContentBlock) (crest : List ContentBlock)
    (hg : findClientWithTool clients funcCall.name = none)
    (hc : findClientWithTool clients toolRequest.name = none) :
    execGeminiAux clients i (funcCall :: rest)
      = buildToolResultPart (geminiCallId i funcCall.name)
          "Could not find that tool" .error
        :: execGeminiAux clients (i + 1) rest
    ∧ execClaudeToolRequests clients (toolRequest :: crest)
      = buildToolResultPart toolRequest.id "Could not find that tool" .error
        :: execClaudeToolRequests clients crest :=
  ⟨execGeminiAux_not_found clients i funcCall rest hg,
   execClaude_not_found clients toolRequest crest hc⟩

/-- Witness for C6 at a concrete unknown tool, over an empty client registry,
with one further request in each batch. -/
theorem claim_C6_unknown_tool_error_witness :
    execGeminiAux [] 0 [⟨"unknown", JsonVal.null⟩, ⟨"x", JsonVal.null⟩]
      = buildToolResultPart (geminiCallId 0 "unknown")
          "Could not find that tool" .error
        :: execGeminiAux [] 1 [⟨"x", JsonVal.null⟩]
    ∧ execClaudeToolRequests []
        [⟨"tool_use", "id1", "unknown", JsonVal.null⟩,
         ⟨"tool_use", "id2", "x", JsonVal.null⟩]
      = buildToolResultPart "id1" "Could not find that tool" .error
        :: execClaudeToolRequests [] [⟨"tool_use", "id2", "x", JsonVal.null⟩] :=
  claim_C6_unknown_tool_error [] 0 ⟨"unknown", JsonVal.null⟩ [⟨"x", JsonVal.null⟩]
    ⟨"tool_use", "id1", "unknown", JsonVal.null⟩
    [⟨"tool_use", "id2", "x", JsonVal.null⟩] rfl rfl

/-- C7: a request whose invocation raises is caught: it produces exactly one
error result whose content is the JSON object
`\x7b"error": "<message>"\x7d`, and the remaining requests of the batch still
execute (both request variants). -/
theorem claim_C7_exception_isolated
    (clients : List MCPClientModel) (i : Nat)
    (funcCall : FunctionCall) (rest : List FunctionCall)
    (toolRequest : ContentBlock) (crest : List ContentBlock)
    (clientG clientC : MCPClientModel) (e1 e2 : String)
    (hfg : findClientWithTool clients funcCall.name = some clientG)
    (hcg : clientG.call funcCall.name funcCall.args = .exn e1)
    (hfc2 : findClientWithTool clients toolRequest.name = some clientC)
    (hcc : clientC.call toolRequest.name toolRequest.input = .exn e2) :
    execGeminiAux clients i (funcCall :: rest)
      = buildToolResultPart (geminiCallId i funcCall.name)
          (pyJsonErrorObj (toolErrorMessage funcCall.name e1)) .error
        :: execGeminiAux clients (i + 1) rest
    ∧ execClaudeToolRequests clients (toolRequest :: crest)
      = buildToolResultPart toolRequest.id
          (pyJsonErrorObj (toolErrorMessage toolRequest.name e2)) .error
        :: execClaudeToolRequests clients crest :=
  ⟨execGeminiAux_exn clients i funcCall rest clientG e1 hfg hcg,
   execClaude_exn clients toolRequest crest clientC e2 hfc2 hcc⟩

/-- Witness for C7 with a concrete client whose `"boom"` tool always raises
`"kaboom"`, with one further request in each batch. -/
theorem claim_C7_exception_isolated_witness :
    execGeminiAux [boomClient] 0 [⟨"boom", JsonVal.null⟩, ⟨"x", JsonVal.null⟩]
      = buildToolResultPart (geminiCallId 0 "boom")
          (pyJsonErrorObj (toolErrorMessage "boom" "kaboom")) .error
        :: execGeminiAux [boomClient] 1 [⟨"x", JsonVal.null⟩]
    ∧ execClaudeToolRequests [boomClient]
        [⟨"tool_use", "id1", "boom", JsonVal.null⟩,
         ⟨"tool_use", "id2", "x", JsonVal.null⟩]
      = buildToolResultPart "id1"
          (pyJsonErrorObj (toolErrorMessage "boom" "kaboom")) .error
        :: execClaudeToolRequests [boomClient] [⟨"tool_use", "id2", "x", JsonVal.null⟩] :=
  claim_C7_exception_isolated [boomClient] 0 ⟨"boom", JsonVal.null⟩
    [⟨"x", JsonVal.null⟩] ⟨"tool_use", "id1", "boom", JsonVal.null⟩
    [⟨"tool_use", "id2", "x", JsonVal.null⟩] boomClient boomClient
    "kaboom" "kaboom" rfl rfl rfl rfl

/-- C5: schema conversion maps the well-formed example schema to itself (and is
therefore idempotent on it), maps any non-mapping input to the empty object,
and a tool whose schema converts to the empty object is emitted without a
`parameters` field by `get_all_tools`. -/
theorem claim_C5_schema_conversion_fixed_point :
    convertMcpSchemaToGemini exSchema = .ok exSchema
    ∧ (convertMcpSchemaToGemini exSchema).bind convertMcpSchemaToGemini
        = convertMcpSchemaToGemini exSchema
    ∧ (∀ v : JsonVal, isObjJ v = false →
        convertMcpSchemaToGemini v = .ok (.obj []))
    ∧ (∀ (t : MCPTool) (s : JsonVal), t.inputSchema = some s →
        convertMcpSchemaToGemini s = .ok (.obj []) →
        geminiToolOfMcp t = .ok ⟨t.name, t.description, none⟩) := by
  refine ⟨rfl, rfl, ?_, ?_⟩
  · intro v hv
    cases v <;> simp_all [convertMcpSchemaToGemini, isObjJ]
  · intro t s hs hconv
    rw [geminiToolOfMcp, hs]
    by_cases ht : jsonTruthy s
    · simp [ht, hconv, jsonTruthy, isObjJ]
    · simp [ht]

/-- Witness for C5: a non-mapping schema converts to the empty object and the
corresponding tool is emitted without parameters. -/
theorem claim_C5_schema_conversion_fixed_point_witness :
    convertMcpSchemaToGemini (.str "nope") = .ok (.obj [])
    ∧ geminiToolOfMcp ⟨"n", "d", some (.str "nope")⟩ = .ok ⟨"n", "d", none⟩ :=
  ⟨claim_C5_schema_conversion_fixed_point.2.2.1 (.str "nope") rfl,
   claim_C5_schema_conversion_fixed_point.2.2.2 ⟨"n", "d", some (.str "nope")⟩
     (.str "nope") rfl
     (claim_C5_schema_conversion_fixed_point.2.2.1 (.str "nope") rfl)⟩

/-- C10: inside schema conversion of a mapping schema, a property definition
that lacks a `type` key is emitted with `type` defaulted to `"string"`, and a
property definition that is not itself a mapping is silently dropped from the
converted properties map. -/
theorem claim_C10_property_default_and_drop
    (fields props : List (String × JsonVal)) (k : String) (pd : JsonVal)
    (hp : fields.lookup "properties" = some (.obj props))
    (hnd : (props.map Prod.fst).Nodup) (hmem : (k, pd) ∈ props) :
    ∃ out : List (String × JsonVal),
      convertMcpSchemaToGemini (.obj fields) = .ok (.obj out)
      ∧ ∃ cprops : List (String × JsonVal),
          out.lookup "properties" = some (.obj cprops)
          ∧ (∀ pf : List (String × JsonVal), pd = .obj pf →
              pf.lookup "type" = none →
              ∃ cp : List (String × JsonVal),
                cprops.lookup k = some (.obj cp)
                ∧ cp.lookup "type" = some (.str "string"))
          ∧ (isObjJ pd = false → cprops.lookup k = none) := by
  have hlook := lookup_cleanProp_filterMap k props pd hnd hmem
  have hA : ∀ pf : List (String × JsonVal), pd = .obj pf →
      pf.lookup "type" = none →
      ∃ cp : List (String × JsonVal),
        (props.filterMap fun p => (cleanProp p.2).map fun c => (p.1, c)).lookup k
          = some (.obj cp)
        ∧ cp.lookup "type" = some (.str "string") := by
    intro pf hpd htype
    subst hpd
    rw [hlook, cleanProp]
    simp only [htype, Option.getD_none]
    exact ⟨_, rfl, rfl⟩
  have hB : isObjJ pd = false →
      (props.filterMap fun p => (cleanProp p.2).map fun c => (p.1, c)).lookup k
        = none := by
    intro hobj
    rw [hlook]
    cases pd <;> simp_all [cleanProp, isObjJ]
  simp only [convertMcpSchemaToGemini, hp]
  cases hreq : fields.lookup "required" with
  | some req => exact ⟨_, rfl, _, rfl, hA, hB⟩
  | none => exact ⟨_, rfl, _, rfl, hA, hB⟩

/-- Witness for C10 on a concrete schema: property `"a"` (a mapping without a
`type` key) gets `type = "string"`; property `"b"` (a number, not a mapping)
is dropped. -/
theorem claim_C10_property_default_and_drop_witness :
    (∃ out : List (String × JsonVal),
      convertMcpSchemaToGemini (.obj c10Schema) = .ok (.obj out)
      ∧ ∃ cprops : List (String × JsonVal),
          out.lookup "properties" = some (.obj cprops)
          ∧ (∀ pf : List (String × JsonVal),
              JsonVal.obj [("description", JsonVal.str "q")] = .obj pf →
              pf.lookup "type" = none →
              ∃ cp : List (String × JsonVal),
                cprops.lookup "a" = some (.obj cp)
                ∧ cp.lookup "type" = some (.str "string"))
          ∧ (isObjJ (JsonVal.obj [("description", JsonVal.str "q")]) = false →
              cprops.lookup "a" = none))
    ∧ (∃ out : List (String × JsonVal),
      convertMcpSchemaToGemini (.obj c10Schema) = .ok (.obj out)
      ∧ ∃ cprops : List (String × JsonVal),
          out.lookup "properties" = some (.obj cprops)
          ∧ (∀ pf : List (String × JsonVal), JsonVal.num 5 = .obj pf →
              pf.lookup "type" = none →
              ∃ cp : List (String × JsonVal),
                cprops.lookup "b" = some (.obj cp)
                ∧ cp.lookup "type" = some (.str "string"))
          ∧ (isObjJ (JsonVal.num 5) = false → cprops.lookup "b" = none)) :=
  ⟨claim_C10_property_default_and_drop c10Schema
      [("a", .obj [("description", .str "q")]), ("b", .num 5)] "a"
      (.obj [("description", .str "q")]) rfl (by decide)
      (List.mem_cons_self _ _),
   claim_C10_property_default_and_drop c10Schema
      [("a", .obj [("description", .str "q")]), ("b", .num 5)] "b"
      (.num 5) rfl (by decide)
      (List.mem_cons_of_mem _ (List.mem_cons_self _ _))⟩

/-- C8: `cleanup()` always completes whatever the teardown outcome (any
teardown error is suppressed), and afterwards the client is closed: the
session is gone and every subsequent `list_tools()` or `call_tool()` call
fails with the session-not-ready `ConnectionError` instead of hanging or
succeeding. -/
theorem claim_C8_cleanup_closes_client (c : MCPClientSt)
    (acloseOutcome : Except String Unit) (toolName : String)
    (toolInput : JsonVal) :
    (c.cleanup acloseOutcome).session = none
    ∧ (c.cleanup acloseOutcome).listTools
        = .error (.connectionError sessionNotReadyMsg)
    ∧ (c.cleanup acloseOutcome).callTool toolName toolInput
        = .error (.connectionError sessionNotReadyMsg) :=
  ⟨rfl, rfl, rfl⟩

/-- C1: for every adapter the loop performs at most 5 cycles; for an adapter
whose every response carries a non-empty function-call list (over clients
whose catalog converts without error), `run` stops after exactly 5 cycles and
returns the fixed fallback text. -/
theorem claim_C1_iteration_cap
    (adapter : List Message → List GeminiTool → ModelResponse)
    (clients : List MCPClientModel) (query : String) (ts : List GeminiTool)
    (hT : getAllTools clients = .ok ts)
    (hfc : ∀ messages tools, fcTruthy (adapter messages tools) = true) :
    (∀ (a : List Message → List GeminiTool → ModelResponse)
       (c : List MCPClientModel) (q : String) (st : RunState),
        chatRunState a c q = .ok st → st.iterationCount ≤ 5)
    ∧ (∃ st : RunState, chatRunState adapter clients query = .ok st
        ∧ st.iterationCount = 5)
    ∧ chatRun adapter clients query = .ok fallbackText := by
  obtain ⟨msgs', h5⟩ := chatLoop_always_fc adapter clients ts hT hfc 5
    ⟨[⟨"user", .text query⟩], 0, ""⟩
  refine ⟨fun a c q st h => chatLoop_count_le a c 5 _ st h, ⟨⟨msgs', 5, ""⟩, h5, rfl⟩, ?_⟩
  unfold chatRun
  rw [show chatRunState adapter clients query = .ok ⟨msgs', 5, ""⟩ from h5]
  rfl

/-- Witness for C1 with an adapter that always requests a tool call. -/
theorem claim_C1_iteration_cap_witness :
    chatRun alwaysFcAdapter [] "hello" = .ok fallbackText :=
  (claim_C1_iteration_cap alwaysFcAdapter [] "hello" [] rfl (fun _ _ => rfl)).2.2

/-- C2 (amended): if the response of the adapter carries no tool-call requests
at iteration `k + 1` for some `k ≤ 3` (the first four iterations), with tool
calls on all earlier iterations, `run` captures the text of that response as
the final answer and returns it.  (On the 5th iteration the post-loop cap check
overwrites the captured text with the fallback message — see the
counterexample.) -/
theorem claim_C2_text_response_returned
    (adapter : List Message → List GeminiTool → ModelResponse)
    (clients : List MCPClientModel) (query : String) (ts : List GeminiTool)
    (k : Nat) (hT : getAllTools clients = .ok ts) (hk : k ≤ 3)
    (hprev : ∀ j, j < k → fcTruthy (respAtIter adapter clients ts query j) = true)
    (hlast : fcTruthy (respAtIter adapter clients ts query k) = false) :
    chatRun adapter clients query
      = .ok (responseTextOf (respAtIter adapter clients ts query k)) := by
  have hpref := chatLoop_fc_prefix adapter clients ts query hT k (5 - k) hprev
  have hk5 : k + (5 - k) = 5 := by omega
  rw [hk5] at hpref
  have hfuel : 5 - k = (4 - k) + 1 := by omega
  rw [hfuel] at hpref
  have hlast' : fcTruthy (adapter (msgsAfterIter adapter clients ts query k) ts)
      = false := hlast
  rw [chatLoop_step_text adapter clients ts (4 - k)
    (msgsAfterIter adapter clients ts query k) k "" hT hlast'] at hpref
  unfold chatRun chatRunState
  rw [hpref]
  have hcap : ¬ (5 ≤ k + 1) := by omega
  simp only [hcap, if_false]
  rfl

/-- Witness for C2 (amended): an adapter that answers in plain text on the
first iteration; `run` returns that text. -/
theorem claim_C2_text_response_returned_witness :
    chatRun alwaysTextAdapter [] "q" = .ok "THE ANSWER" :=
  claim_C2_text_response_returned alwaysTextAdapter [] "q" [] 0 rfl
    (by omega) (fun j hj => absurd hj (by omega)) rfl

/-- C2 is false as stated for the 5th iteration: with `fifthTextAdapter` the
response at iteration 5 carries no tool calls and has text `"THE ANSWER"`,
yet `run` returns the fallback text, because the post-loop check
`iteration_count >= max_iterations` also fires when the loop broke on the 5th
iteration with a captured answer. -/
theorem claim_C2_counterexample_fifth_iteration :
    (∀ j, j < 4 → fcTruthy (respAtIter fifthTextAdapter [] [] "q" j) = true)
    ∧ fcTruthy (respAtIter fifthTextAdapter [] [] "q" 4) = false
    ∧ responseTextOf (respAtIter fifthTextAdapter [] [] "q" 4) = "THE ANSWER"
    ∧ chatRun fifthTextAdapter [] "q" = .ok fallbackText
    ∧ fallbackText ≠ "THE ANSWER" := by
  refine ⟨by decide, rfl, rfl, rfl, by decide⟩

/-- C9: in every run that returns, whenever an assistant message containing
function-call parts was appended to the transcript, the immediately following
message is a user message carrying either the tool-result summary block or
the empty-batch placeholder, so an assistant tool-call message is never
directly followed by another model call. -/
theorem claim_C9_transcript_pairing
    (adapter : List Message → List GeminiTool → ModelResponse)
    (clients : List MCPClientModel) (query : String) (st : RunState)
    (h : chatRunState adapter clients query = .ok st) :
    pairedOk st.messages :=
  chatLoop_pairedOk adapter clients 5 ⟨[⟨"user", .text query⟩], 0, ""⟩ st
    ⟨fun hfc => by simp [isAssistantFC] at hfc, trivial⟩ h

/-- Witness for C9 on a concrete run (the always-tool-calling adapter over no
clients). -/
theorem claim_C9_transcript_pairing_witness :
    ∃ st : RunState, chatRunState alwaysFcAdapter [] "q" = .ok st
      ∧ pairedOk st.messages :=
  ⟨_, rfl, claim_C9_transcript_pairing alwaysFcAdapter [] "q" _ rfl⟩
